import Mathlib

/-!
Verification of the chunking and prioritization engine of this repository
(src/tools/ast_chunker.py and the chunk-grouping part of src/tools/llm_scanner.py)
against its natural-language specification.

The Python code is shallowly embedded: each Python helper becomes a Lean
definition with the same name (leading underscores dropped), Python lists
become Lean lists, Python dicts with fixed keys become structures, machine
integers become Nat/Int.  Python float arithmetic in the token estimator is
modelled with exact rational arithmetic (documented at the definition); all
theorems about the group packer are stated for an arbitrary estimator
function, so they cover the floating-point estimator as well.
-/

/-! ## Group packer (src/tools/llm_scanner.py, _group_chunks_by_context) -/

/-- Python str.split() whitespace (ASCII part): space, tab, newline,
carriage return, vertical tab, form feed. -/
def isPySpace (c : Char) : Bool :=
  c = ' ' || c = '\t' || c = '\n' || c = '\r' || c = '\x0b' || c = '\x0c'

/-- State machine counting maximal non-whitespace runs; the Bool records
whether we are currently inside a word. -/
def countWords : List Char → Bool → Nat
  | [], _ => 0
  | c :: rest, inWord =>
    if isPySpace c then countWords rest false
    else (if inWord then 0 else 1) + countWords rest true

/-- Word count of a string, as Python len(s.split()). -/
def pyWords (s : String) : Nat := countWords s.toList false

/-- A chunk as seen by the scanner: only the prelude content and unit content
are read by _estimate_chunk_tokens; everything else is opaque to grouping. -/
structure ScanChunk where
  preludeContent : Option String
  unitContent : Option String
deriving DecidableEq

/-- Embeds _estimate_chunk_tokens.  The Python code computes
int(words(prelude)*1.3 + words(unit)*1.3 + 500) with float arithmetic; we
model the arithmetic exactly over the rationals, which gives
(13*(wp+wu))/10 + 500 with Nat (floor) division.  A missing or empty
content contributes zero words, exactly as the Python truthiness test. -/
def estimate_chunk_tokens (c : ScanChunk) : Nat :=
  13 * (pyWords (c.preludeContent.getD "") + pyWords (c.unitContent.getD "")) / 10 + 500

/-- Embeds the loop of _group_chunks_by_context.  State: remaining chunks,
current_group, current_tokens.  The estimator is a parameter (the Python
method calls self._estimate_chunk_tokens); all invariants below hold for
every estimator, hence for the floating-point one.  The branch where the
limit condition fires on an empty current group mirrors the Python code,
which in that case does not reset current_tokens (the branch is unreachable
because an empty group always has current_tokens = 0). -/
def group_chunks_go {α : Type} (est : α → Nat) :
    List α → List α → Nat → List (List α)
  | [], cur, _ => if cur.isEmpty then [] else [cur]
  | c :: rest, cur, tok =>
    if est c > 8000 then
      group_chunks_go est rest cur tok
    else if tok + est c > 15000 ∨ 3 ≤ cur.length then
      if cur.isEmpty then group_chunks_go est rest (cur ++ [c]) (tok + est c)
      else cur :: group_chunks_go est rest [c] (est c)
    else
      group_chunks_go est rest (cur ++ [c]) (tok + est c)

/-- Embeds _group_chunks_by_context: max_tokens_per_group = 15000,
max_chunks_per_group = 3, per-chunk cap 8000 are the hardcoded constants of
the Python method. -/
def group_chunks_by_context {α : Type} (est : α → Nat) (chunks : List α) :
    List (List α) :=
  group_chunks_go est chunks [] 0

theorem group_chunks_go_bounds {α : Type} (est : α → Nat) :
    ∀ (chunks cur : List α) (tok : Nat),
      tok = (cur.map est).sum → tok ≤ 15000 → cur.length ≤ 3 →
      (∀ c ∈ cur, est c ≤ 8000) →
      ∀ g ∈ group_chunks_go est chunks cur tok,
        (g.map est).sum ≤ 15000 ∧ g.length ≤ 3 ∧ ∀ c ∈ g, est c ≤ 8000 := by
  intro chunks
  induction chunks with
  | nil =>
    intro cur tok htok hsum hlen hcap g hg
    simp only [group_chunks_go] at hg
    by_cases hcur : cur.isEmpty
    · simp [hcur] at hg
    · simp [hcur] at hg
      subst hg
      exact ⟨htok ▸ hsum, hlen, hcap⟩
  | cons c rest ih =>
    intro cur tok htok hsum hlen hcap g hg
    simp only [group_chunks_go] at hg
    by_cases hbig : est c > 8000
    · simp only [if_pos hbig] at hg
      exact ih cur tok htok hsum hlen hcap g hg
    · simp only [if_neg hbig] at hg
      push_neg at hbig
      by_cases hclose : tok + est c > 15000 ∨ 3 ≤ cur.length
      · simp only [if_pos hclose] at hg
        by_cases hcur : cur.isEmpty
        · exfalso
          have hc : cur = [] := List.isEmpty_iff.mp hcur
          subst hc
          simp at htok
          subst htok
          rcases hclose with h | h
          · omega
          · simp at h
        · simp only [if_neg hcur, List.mem_cons] at hg
          rcases hg with hg | hg
          · subst hg
            exact ⟨htok ▸ hsum, hlen, hcap⟩
          · refine ih [c] (est c) (by simp) (by omega) (by simp) ?_ g hg
            intro x hx
            simp at hx
            subst hx
            exact hbig
      · simp only [if_neg hclose] at hg
        push_neg at hclose
        refine ih (cur ++ [c]) (tok + est c) ?_ ?_ ?_ ?_ g hg
        · simp [htok]
        · omega
        · have := hclose.2
          simp
          omega
        · intro x hx
          simp at hx
          rcases hx with hx | hx
          · exact hcap x hx
          · subst hx
            exact hbig

theorem group_chunks_go_join {α : Type} (est : α → Nat) :
    ∀ (chunks cur : List α) (tok : Nat),
      (group_chunks_go est chunks cur tok).flatten
        = cur ++ chunks.filter (fun c => decide (est c ≤ 8000)) := by
  intro chunks
  induction chunks with
  | nil =>
    intro cur tok
    simp only [group_chunks_go]
    by_cases hcur : cur.isEmpty
    · have hc : cur = [] := List.isEmpty_iff.mp hcur
      simp [hc]
    · simp [hcur]
  | cons c rest ih =>
    intro cur tok
    simp only [group_chunks_go, List.filter_cons]
    by_cases hbig : est c > 8000
    · rw [if_pos hbig, ih]
      have h8 : ¬ (est c ≤ 8000) := by omega
      simp [h8]
    · rw [if_neg hbig]
      push_neg at hbig
      have h8 : est c ≤ 8000 := hbig
      by_cases hclose : tok + est c > 15000 ∨ 3 ≤ cur.length
      · rw [if_pos hclose]
        by_cases hcur : cur.isEmpty
        · rw [if_pos hcur, ih]
          have hc : cur = [] := List.isEmpty_iff.mp hcur
          simp [hc, h8]
        · rw [if_neg hcur, List.flatten_cons, ih]
          simp [h8]
      · rw [if_neg hclose, ih]
        simp [h8]

theorem group_chunks_go_ne_nil {α : Type} (est : α → Nat) :
    ∀ (chunks cur : List α) (tok : Nat),
      ∀ g ∈ group_chunks_go est chunks cur tok, g ≠ [] := by
  intro chunks
  induction chunks with
  | nil =>
    intro cur tok g hg
    simp only [group_chunks_go] at hg
    by_cases hcur : cur.isEmpty
    · simp [hcur] at hg
    · simp [hcur] at hg
      subst hg
      exact fun h => hcur (by simp [h])
  | cons c rest ih =>
    intro cur tok g hg
    simp only [group_chunks_go] at hg
    by_cases hbig : est c > 8000
    · simp only [if_pos hbig] at hg
      exact ih cur tok g hg
    · simp only [if_neg hbig] at hg
      by_cases hclose : tok + est c > 15000 ∨ 3 ≤ cur.length
      · simp only [if_pos hclose] at hg
        by_cases hcur : cur.isEmpty
        · simp only [if_pos hcur] at hg
          exact ih _ _ g hg
        · simp only [if_neg hcur, List.mem_cons] at hg
          rcases hg with hg | hg
          · subst hg
            exact fun h => hcur (by simp [h])
          · exact ih _ _ g hg
      · simp only [if_neg hclose] at hg
        exact ih _ _ g hg

/-- Claim C1 (confirmed).  For every estimator and every input chunk
sequence, every group emitted by _group_chunks_by_context satisfies all
three bounds: the estimated token counts sum to at most 15000
(max_tokens_per_group), the group holds at most 3 chunks
(max_chunks_per_group), and no chunk whose estimate exceeds the per-chunk
cap of 8000 tokens appears in any group. -/
theorem group_packer_budget_invariant {α : Type} (est : α → Nat)
    (chunks : List α) (g : List α)
    (hg : g ∈ group_chunks_by_context est chunks) :
    (g.map est).sum ≤ 15000 ∧ g.length ≤ 3 ∧ ∀ c ∈ g, est c ≤ 8000 :=
  group_chunks_go_bounds est chunks [] 0 rfl (by omega) (by simp) (by simp) g hg

/-- A small concrete chunk (506 estimated tokens) used in witnesses. -/
def demoChunk : ScanChunk := ⟨some "a b", some "c d e"⟩

/-- Claim C9 (confirmed).  The concatenation of the emitted groups, in
emission order, is exactly the input sequence with the oversized chunks
(estimate above 8000) removed — so every non-oversized chunk lands in
exactly one group, input order is preserved across and within groups — and
every emitted group is non-empty. -/
theorem group_packer_partition {α : Type} (est : α → Nat) (chunks : List α) :
    (group_chunks_by_context est chunks).flatten
        = chunks.filter (fun c => decide (est c ≤ 8000))
      ∧ ∀ g ∈ group_chunks_by_context est chunks, g ≠ [] :=
  ⟨group_chunks_go_join est chunks [] 0,
   group_chunks_go_ne_nil est chunks [] 0⟩

/-- Witness for C9: on a concrete mixed input (one oversized Nat-chunk with
estimate 9000 between two small ones) the flattened output is the input
minus the oversized chunk, and a concrete emitted group is non-empty. -/
theorem group_packer_partition_witness :
    ((group_chunks_by_context (fun n => n) [100, 9000, 200]).flatten
        = [100, 200] ∧ ([100, 200] : List Nat) ≠ []) :=
  ⟨by
    have h := (group_packer_partition (fun n => n) [100, 9000, 200]).1
    simpa using h,
   (group_packer_partition (fun n => n) [100, 200]).2 [100, 200] (by decide)⟩

/-- Counterexample to claim C4.  A single chunk whose estimate (9000)
exceeds the 8000-token cap is dropped by _group_chunks_by_context with no
trace in the return value: the function returns only the (here empty) group
list, so the caller cannot enumerate the skipped chunk from the result.
(The Python method only prints a console warning; its comment says
"For now, skip very large chunks".)  The estimator is the function
parameter est; an estimate of 9000 stands for any chunk the real
float-based estimator maps above the cap. -/
theorem group_packer_no_skip_record_counterexample :
    group_chunks_by_context (fun n => n) [9000] = ([] : List (List Nat)) := by
  decide

/-- Claim C4 as amended: every chunk whose estimate exceeds the per-chunk
cap of 8000 tokens is excluded from every emitted group (it appears nowhere
in the returned group list), but it is NOT recorded in the returned result —
the return value is the bare list of groups, with no skip-list entry. -/
theorem group_packer_oversized_excluded {α : Type} (est : α → Nat)
    (chunks : List α) (c : α) (hc : est c > 8000) :
    c ∉ (group_chunks_by_context est chunks).flatten := by
  intro hmem
  rw [group_chunks_by_context, group_chunks_go_join est chunks [] 0] at hmem
  simp only [List.nil_append] at hmem
  have := List.of_mem_filter hmem
  simp at this
  omega

/-- Witness for C4's amended theorem at a concrete input. -/
theorem group_packer_oversized_excluded_witness :
    (9000 : Nat) ∉ (group_chunks_by_context (fun n => n) [100, 9000, 200]).flatten :=
  group_packer_oversized_excluded (fun n => n) [100, 9000, 200] 9000 (by decide)

/-- Witness for C1: a concrete run of the packer on four small chunks, with
the real token estimator, satisfies the bounds. -/
theorem group_packer_budget_invariant_witness :
    (([demoChunk, demoChunk, demoChunk].map estimate_chunk_tokens).sum ≤ 15000 ∧
      [demoChunk, demoChunk, demoChunk].length ≤ 3 ∧
      ∀ x ∈ [demoChunk, demoChunk, demoChunk], estimate_chunk_tokens x ≤ 8000) :=
  group_packer_budget_invariant estimate_chunk_tokens
    [demoChunk, demoChunk, demoChunk, demoChunk]
    [demoChunk, demoChunk, demoChunk]
    (by decide)

/-! ## File indexer (src/tools/ast_chunker.py): string and path utilities -/

/-- Python str.strip() on a list of characters. -/
def pyStripList (l : List Char) : List Char :=
  ((l.dropWhile isPySpace).reverse.dropWhile isPySpace).reverse

/-- Python str.strip(). -/
def pyStrip (s : String) : String := String.mk (pyStripList s.toList)

/-- Python len(line) - len(line.lstrip()): the leading-whitespace count. -/
def lineIndent (s : String) : Nat := (s.toList.takeWhile isPySpace).length

/-- Python regex word character \w (ASCII model). -/
def isWordChar (c : Char) : Bool := c.isAlphanum || c = '_'

/-- The single-quote character, kept out of literals. -/
def singleQuoteChar : Char := Char.ofNat 39

def isQuoteChar (c : Char) : Bool := c = singleQuoteChar || c = '"'

def openBraceChar : Char := Char.ofNat 123

def closeBraceChar : Char := Char.ofNat 125

/-- Python str.split(sep) for a one-character separator, over character
lists (the built-in String.splitOn does not reduce in the kernel). -/
def splitOnCharList (sep : Char) : List Char → List (List Char)
  | [] => [[]]
  | c :: rest =>
    let r := splitOnCharList sep rest
    if c = sep then [] :: r
    else
      match r with
      | h :: t => (c :: h) :: t
      | [] => [[c]]

/-- Python str.split(sep) for a one-character separator. -/
def pySplitOnChar (sep : Char) (s : String) : List String :=
  (splitOnCharList sep s.toList).map String.mk

/-- Python str.lower() (ASCII model; String.toLower does not reduce in the
kernel). -/
def pyToLower (s : String) : String := String.mk (s.toList.map Char.toLower)

/-- Final component of a path (Python pathlib Path.name). -/
def pathBasename (p : String) : String := (pySplitOnChar '/' p).getLastD p

/-- Index of the last dot in a name (Python str.rfind), none if absent. -/
def lastDotIdx (l : List Char) : Option Nat :=
  let r := l.reverse.indexOf '.'
  if r < l.length then some (l.length - 1 - r) else none

/-- Python pathlib Path.suffix: the extension from the last dot, provided
the dot is neither the first nor the last character of the name. -/
def pathSuffix (p : String) : String :=
  let l := (pathBasename p).toList
  match lastDotIdx l with
  | some i => if 0 < i ∧ i < l.length - 1 then String.mk (l.drop i) else ""
  | none => ""

/-- Python pathlib Path.stem: the final component without its suffix. -/
def pathStem (p : String) : String :=
  let l := (pathBasename p).toList
  match lastDotIdx l with
  | some i => if 0 < i ∧ i < l.length - 1 then String.mk (l.take i) else String.mk l
  | none => String.mk l

/-! ## Regex-fragment matchers shared by the extractors

Each Python regex used by ast_chunker.py is deterministic once the greedy
runs are taken maximal: every variable-length piece (\s+, \S+, \w+, [^X]+)
is followed by a token that cannot begin inside the run, so the greedy
match never backtracks (the one exception, a trailing [^\n]+ after \s+ at
end of input, is handled explicitly in importTail).  Matchers work on
character lists and return the captured group together with the unconsumed
remainder. -/

/-- Matches "kw\s+" at the head of l (literal keyword, then at least one
whitespace); returns the remainder after the maximal whitespace run. -/
def dropKwWs (kw : List Char) (l : List Char) : Option (List Char) :=
  if l.take kw.length = kw then
    match l.drop kw.length with
    | [] => none
    | c :: rest =>
      if isPySpace c then some ((c :: rest).dropWhile isPySpace) else none
  else none

/-- Matches "kw\s+(\w+)" at the head of l; returns the captured name and
the remainder after it. -/
def matchKwNameRest (kw : List Char) (l : List Char) :
    Option (List Char × List Char) :=
  match dropKwWs kw l with
  | none => none
  | some r =>
    let nm := r.takeWhile isWordChar
    if nm.isEmpty then none else some (nm, r.drop nm.length)

/-- Matches "kw\s+(\w+)" and returns just the captured name. -/
def matchKwName (kw : List Char) (l : List Char) : Option (List Char) :=
  (matchKwNameRest kw l).map (fun x => x.1)

def kwClass : List Char := "class".toList
def kwDef : List Char := "def".toList
def kwImport : List Char := "import".toList
def kwFrom : List Char := "from".toList
def kwExport : List Char := "export".toList
def kwDefault : List Char := "default".toList
def kwFunction : List Char := "function".toList
def kwConst : List Char := "const".toList
def kwInterface : List Char := "interface".toList
def kwAsync : List Char := "async".toList
def kwAs : List Char := "as".toList
def kwFunc : List Char := "func".toList
def kwType : List Char := "type".toList
def kwAllUnderscore : List Char := "__all__".toList

/-- Matches "\s+([^\n]+)" right after the literal "import" of the Python
regex for imports.  The greedy \s+ normally takes its maximal run, after which
the next character is non-whitespace (hence not a newline) and ([^\n]+)
takes the maximal newline-free run.  When the whitespace run reaches the
end of the input, Python's engine backtracks: \s+ gives characters back
until ([^\n]+) can start on a non-newline (whitespace) character; the
largest such split point wins. -/
def importTail (r : List Char) : Option (String × List Char) :=
  let w := r.takeWhile isPySpace
  if w.isEmpty then none
  else
    match r.drop w.length with
    | c :: rest =>
      let grp := (c :: rest).takeWhile (fun ch => ch ≠ '\n')
      some (String.mk grp, (c :: rest).drop grp.length)
    | [] =>
      match ((List.range w.length).filter
          (fun k => decide (1 ≤ k) && w.getD k '\n' ≠ '\n')).getLast? with
      | some k =>
        let grp := (r.drop k).takeWhile (fun ch => ch ≠ '\n')
        some (String.mk grp, r.drop (k + grp.length))
      | none => none

/-- Matches the Python import regex
from-group optional, then "import\s+([^\n]+)", at the head of l (the ^
anchor is checked by the caller).  Returns the string appended to the
list of imports (module.names for the from-form, names otherwise) and the
remainder after the match. -/
def matchImportAt (l : List Char) : Option (String × List Char) :=
  let fromBranch : Option (String × List Char) :=
    match dropKwWs kwFrom l with
    | none => none
    | some r1 =>
      let md := r1.takeWhile (fun c => !isPySpace c)
      if md.isEmpty then none
      else
        match r1.drop md.length with
        | c :: rest =>
          if isPySpace c then
            let r3 := (c :: rest).dropWhile isPySpace
            if r3.take 6 = kwImport then
              match importTail (r3.drop 6) with
              | some (g2, r4) => some (String.mk md ++ "." ++ g2, r4)
              | none => none
            else none
          else none
        | [] => none
  match fromBranch with
  | some x => some x
  | none =>
    if l.take 6 = kwImport then
      match importTail (l.drop 6) with
      | some (g2, r4) => some (g2, r4)
      | none => none
    else none

/-- re.finditer with the MULTILINE ^ anchor: a match is attempted only at
the start of the input or right after a newline, and scanning resumes
after each match.  Fuel is initialised to the content length; every step
consumes at least one character, so the bound is never reached. -/
def scanImportsPy : Nat → List Char → Bool → List String
  | 0, _, _ => []
  | _ + 1, [], _ => []
  | fuel + 1, c :: rest, atStart =>
    if atStart then
      match matchImportAt (c :: rest) with
      | some (v, r) => v :: scanImportsPy fuel r false
      | none => scanImportsPy fuel rest (c = '\n')
    else scanImportsPy fuel rest (c = '\n')

/-- Matches the JS import regex
"import\s+(spec)\s+from\s+[quote]([^quotes]+)[quote]" where spec is a brace
group, a bare name, or a star-as alias; returns the captured module string
and the remainder.  The three specifier alternatives are distinguished by
their first character, so the alternation is deterministic. -/
def matchJsImportAt (l : List Char) : Option (String × List Char) :=
  match dropKwWs kwImport l with
  | none => none
  | some r1 =>
    let spec? : Option (List Char) :=
      match r1 with
      | [] => none
      | c :: r2 =>
        if c = openBraceChar then
          let inner := r2.takeWhile (fun ch => ch ≠ closeBraceChar)
          if inner.isEmpty then none
          else
            match r2.drop inner.length with
            | d :: r3 => if d = closeBraceChar then some r3 else none
            | [] => none
        else if isWordChar c then
          some ((c :: r2).drop ((c :: r2).takeWhile isWordChar).length)
        else if c = '*' then
          match r2 with
          | d :: _ =>
            if isPySpace d then
              match matchKwNameRest kwAs (r2.dropWhile isPySpace) with
              | some (_, r3) => some r3
              | none => none
            else none
          | [] => none
        else none
    match spec? with
    | none => none
    | some rs =>
      match rs with
      | c :: _ =>
        if isPySpace c then
          match dropKwWs kwFrom (rs.dropWhile isPySpace) with
          | some r4 =>
            match r4 with
            | q :: r5 =>
              if isQuoteChar q then
                let grp := r5.takeWhile (fun ch => !isQuoteChar ch)
                if grp.isEmpty then none
                else
                  match r5.drop grp.length with
                  | q2 :: r6 =>
                    if isQuoteChar q2 then some (String.mk grp, r6) else none
                  | [] => none
              else none
            | [] => none
          | none => none
        else none
      | [] => none

/-- Matches the Go import regex
"import\s+" then either a quoted string (group 1) or a parenthesised
quoted string with optional inner whitespace (group 2); the appended value
is group 1 or group 2. -/
def matchGoImportAt (l : List Char) : Option (String × List Char) :=
  match dropKwWs kwImport l with
  | none => none
  | some r1 =>
    match r1 with
    | q :: r2 =>
      if isQuoteChar q then
        let grp := r2.takeWhile (fun ch => !isQuoteChar ch)
        if grp.isEmpty then none
        else
          match r2.drop grp.length with
          | q2 :: r3 => if isQuoteChar q2 then some (String.mk grp, r3) else none
          | [] => none
      else if q = '(' then
        let r3 := r2.dropWhile isPySpace
        match r3 with
        | q1 :: r4 =>
          if isQuoteChar q1 then
            let grp := r4.takeWhile (fun ch => !isQuoteChar ch)
            if grp.isEmpty then none
            else
              match r4.drop grp.length with
              | q2 :: r5 =>
                if isQuoteChar q2 then
                  match r5.dropWhile isPySpace with
                  | ')' :: r6 => some (String.mk grp, r6)
                  | _ => none
                else none
              | [] => none
          else none
        | [] => none
      else none
    | [] => none

/-- re.finditer / re.findall without an anchor: a match is attempted at
every position, scanning resumes after each match.  Fuel as in
scanImportsPy. -/
def scanAnywhere (m : List Char → Option (String × List Char)) :
    Nat → List Char → List String
  | 0, _ => []
  | _ + 1, [] => []
  | fuel + 1, c :: rest =>
    match m (c :: rest) with
    | some (v, r) => v :: scanAnywhere m fuel r
    | none => scanAnywhere m fuel rest

/-- re.finditer / re.findall with a MULTILINE ^ anchor: a match is
attempted at the start of the input and right after every newline. -/
def scanMultiline (m : List Char → Option (List Char × List Char)) :
    Nat → List Char → Bool → List String
  | 0, _, _ => []
  | _ + 1, [], _ => []
  | fuel + 1, c :: rest, atStart =>
    if atStart then
      match m (c :: rest) with
      | some (nm, r) => String.mk nm :: scanMultiline m fuel r false
      | none => scanMultiline m fuel rest (c = '\n')
    else scanMultiline m fuel rest (c = '\n')

/-- Embeds _extract_imports. -/
def extract_imports (content : String) (lang : String) : List String :=
  if lang = "py" then
    scanImportsPy content.length content.toList true
  else if ["js", "ts", "jsx", "tsx"].contains lang then
    scanAnywhere matchJsImportAt content.length content.toList
  else if lang = "go" then
    scanAnywhere matchGoImportAt content.length content.toList
  else []

/-- Matches the __all__ regex "__all__\s*=\s*bracketed-list" at the head of
l, returning the raw characters between the square brackets. -/
def matchAllAt (l : List Char) : Option (List Char) :=
  if l.take 7 = kwAllUnderscore then
    match (l.drop 7).dropWhile isPySpace with
    | '=' :: r2 =>
      match r2.dropWhile isPySpace with
      | c :: r4 =>
        if c = '[' then
          let grp := r4.takeWhile (fun ch => ch ≠ ']')
          if grp.isEmpty then none
          else
            match r4.drop grp.length with
            | d :: _ => if d = ']' then some grp else none
            | [] => none
        else none
      | [] => none
    | _ => none
  else none

/-- re.search for the __all__ pattern: first match anywhere. -/
def searchAll : Nat → List Char → Option (List Char)
  | 0, _ => none
  | _ + 1, [] => none
  | fuel + 1, c :: rest =>
    match matchAllAt (c :: rest) with
    | some g => some g
    | none => searchAll fuel rest

/-- Python s.strip().strip(quotes): strip whitespace, then strip leading and
trailing quote characters. -/
def stripWsAndQuotes (s : String) : String :=
  let l := pyStripList s.toList
  String.mk (((l.dropWhile isQuoteChar).reverse.dropWhile isQuoteChar).reverse)

/-- Matches the JS export regex
"export\s+(default\s+)?(function|const|class|interface)\s+(\w+)" at the
head of l; the appended value is the single non-empty capture group.  The
optional default group commits greedily; if it matched, the four keyword
alternatives cannot match the literal "default" that would remain without
it, so committing is equivalent to backtracking. -/
def matchJsExportAt (l : List Char) : Option (String × List Char) :=
  match dropKwWs kwExport l with
  | none => none
  | some r1 =>
    let r2 := (dropKwWs kwDefault r1).getD r1
    match matchKwNameRest kwFunction r2 with
    | some (nm, r) => some (String.mk nm, r)
    | none =>
      match matchKwNameRest kwConst r2 with
      | some (nm, r) => some (String.mk nm, r)
      | none =>
        match matchKwNameRest kwClass r2 with
        | some (nm, r) => some (String.mk nm, r)
        | none =>
          match matchKwNameRest kwInterface r2 with
          | some (nm, r) => some (String.mk nm, r)
          | none => none

/-- Embeds _extract_exports. -/
def extract_exports (content : String) (lang : String) : List String :=
  if lang = "py" then
    match searchAll content.length content.toList with
    | some grp =>
      ((String.mk grp).splitOn ",").map stripWsAndQuotes
    | none => []
  else if ["js", "ts", "jsx", "tsx"].contains lang then
    scanAnywhere matchJsExportAt content.length content.toList
  else []

/-- Matches the JS class pattern "(export\s+)?class\s+(\w+)"; committing the
optional export group is equivalent to backtracking because a remainder
starting with "export" can never match the literal "class". -/
def matchJsClassAt (l : List Char) : Option (List Char × List Char) :=
  matchKwNameRest kwClass ((dropKwWs kwExport l).getD l)

/-- Matches the JS function-head pattern
"(export\s+)?(function\s+(\w+)|const\s+(\w+)\s*=\s*(async\s+)?\s*paren)"
returning the captured name and the remainder after the match. -/
def matchJsFuncHeadAt (l : List Char) : Option (List Char × List Char) :=
  let l2 := (dropKwWs kwExport l).getD l
  match matchKwNameRest kwFunction l2 with
  | some (nm, r) => some (nm, r)
  | none =>
    match matchKwNameRest kwConst l2 with
    | some (nm, r) =>
      match r.dropWhile isPySpace with
      | '=' :: r3 =>
        let r4 := r3.dropWhile isPySpace
        let r5 := (dropKwWs kwAsync r4).getD r4
        match r5.dropWhile isPySpace with
        | '(' :: r7 => some (nm, r7)
        | _ => none
      | _ => none
    | none => none

/-- Embeds _extract_symbols: per language, the MULTILINE findall results of
the class-like pattern followed by those of the function-like pattern. -/
def extract_symbols (content : String) (lang : String) : List String :=
  if lang = "py" then
    scanMultiline (matchKwNameRest kwClass) content.length content.toList true
      ++ scanMultiline (matchKwNameRest kwDef) content.length content.toList true
  else if ["js", "ts", "jsx", "tsx"].contains lang then
    scanMultiline matchJsClassAt content.length content.toList true
      ++ scanMultiline matchJsFuncHeadAt content.length content.toList true
  else if lang = "go" then
    scanMultiline (matchKwNameRest kwFunc) content.length content.toList true
      ++ scanMultiline (matchKwNameRest kwType) content.length content.toList true
  else []

/-- The extension table of ASTChunker.__init__ (self.lang_patterns), in
insertion order. -/
def lang_patterns : List (String × List String) :=
  [("py", [".py"]), ("js", [".js"]), ("ts", [".ts", ".tsx"]), ("jsx", [".jsx"]),
   ("go", [".go"]), ("java", [".java"]), ("cs", [".cs"]), ("rs", [".rs"]),
   ("php", [".php"]), ("rb", [".rb"]), ("cpp", [".cpp", ".cc", ".cxx"]),
   ("c", [".c"]), ("h", [".h", ".hpp"]), ("json", [".json"]),
   ("yaml", [".yaml", ".yml"]), ("toml", [".toml"]), ("md", [".md"]),
   ("sql", [".sql"])]

/-- Embeds _detect_language: first table entry whose extension list holds
the lowercased suffix, else "unknown". -/
def detect_language (path : String) : String :=
  let suffix := pyToLower (pathSuffix path)
  match lang_patterns.find? (fun p => p.2.contains suffix) with
  | some p => p.1
  | none => "unknown"

/-- Python substring containment (the in operator on str): the needle
occurs as a contiguous run inside the haystack. -/
def containsSub (needle : List Char) : List Char → Bool
  | [] => needle.isPrefixOf []
  | c :: rest => needle.isPrefixOf (c :: rest) || containsSub needle rest

theorem containsSub_spec (needle : List Char) :
    ∀ hay : List Char, containsSub needle hay = true ↔ needle <:+: hay := by
  intro hay
  induction hay with
  | nil =>
    simp only [containsSub, List.isPrefixOf_iff_prefix, List.infix_nil]
    constructor
    · intro h
      exact List.prefix_nil.mp h
    · intro h
      simp [h]
  | cons c rest ih =>
    simp only [containsSub, Bool.or_eq_true, List.isPrefixOf_iff_prefix,
      List.infix_cons_iff, ih]

/-- The ignore list of _should_ignore_file. -/
def ignore_patterns : List String :=
  [".git", "__pycache__", "node_modules", ".venv", "venv",
   "vendor", "third_party", "dist", "build", ".next",
   ".DS_Store", "*.log", "*.tmp", "*.cache"]

/-- Embeds _should_ignore_file: any pattern occurring as a substring of the
path. -/
def should_ignore_file (path : String) : Bool :=
  ignore_patterns.any (fun pat => containsSub pat.toList path.toList)

/-- The entry-point vocabulary of ASTChunker.__init__
(self.entry_point_patterns). -/
def entry_point_patterns : List String :=
  ["main", "server", "app", "index", "routes", "entry",
   "start", "bootstrap", "init", "run"]

/-- The content idioms of _is_entry_point (entry_indicators), in source
order: note the bare "main()" general indicator, which the spec omits. -/
def entry_indicators : List String :=
  ["if __name__ == \"__main__\"", "main()", "app.listen", "server.listen",
   "func main()", "public static void main"]

/-- Embeds _is_entry_point: the lowercased filename stem contains one of the
vocabulary words, or the content contains one of the idioms. -/
def is_entry_point (path : String) (content : String) : Bool :=
  let filename := pyToLower (pathStem path)
  if entry_point_patterns.any (fun p => containsSub p.toList filename.toList) then
    true
  else
    entry_indicators.any (fun s => containsSub s.toList content.toList)

/-- Modelled from the spec: claim C7 names exactly five content idioms,
leaving out the bare "main()" indicator present in the code.  This
definition follows the spec wording and exists only to be compared with
is_entry_point. -/
def spec_entry_indicators : List String :=
  ["if __name__ == \"__main__\"", "func main()", "public static void main",
   "app.listen", "server.listen"]

/-- Modelled from the spec: entry-point detection as claim C7 states it. -/
def spec_is_entry_point (path : String) (content : String) : Bool :=
  let filename := pyToLower (pathStem path)
  entry_point_patterns.any (fun p => containsSub p.toList filename.toList)
    || spec_entry_indicators.any (fun s => containsSub s.toList content.toList)

/-- Counterexample to claim C7.  The file calc.py with content "main()" is
marked as an entry point by the code (the sixth indicator, bare "main()",
matches) although its stem matches no vocabulary word and its content
contains none of the five idioms listed by the spec. -/
theorem entry_point_indicator_counterexample :
    is_entry_point "calc.py" "main()" = true
      ∧ spec_is_entry_point "calc.py" "main()" = false := by
  constructor
  · decide
  · decide

/-- Claim C7 as amended: is_entry_point is true exactly when the lowercased
filename stem contains one of the ten vocabulary words as a substring, or
the content contains one of SIX fixed idioms — the five listed in the spec
plus the bare "main()" general indicator. -/
theorem entry_point_characterisation (path content : String) :
    is_entry_point path content = true
      ↔ ((∃ p ∈ entry_point_patterns,
            p.toList <:+: ((pyToLower (pathStem path)).toList))
          ∨ ∃ s ∈ entry_indicators, s.toList <:+: content.toList) := by
  unfold is_entry_point
  by_cases h : entry_point_patterns.any
      (fun p => containsSub p.toList ((pyToLower (pathStem path)).toList))
  · simp only [h, if_pos]
    constructor
    · intro _
      left
      rcases List.any_eq_true.mp h with ⟨p, hp, hinf⟩
      exact ⟨p, hp, (containsSub_spec _ _).mp hinf⟩
    · intro _
      trivial
  · simp only [h, if_neg, Bool.if_false_left]
    constructor
    · intro hc
      right
      rcases List.any_eq_true.mp hc with ⟨s, hs, hinf⟩
      exact ⟨s, hs, (containsSub_spec _ _).mp hinf⟩
    · intro hc
      rcases hc with ⟨p, hp, hinf⟩ | ⟨s, hs, hinf⟩
      · exact absurd (List.any_eq_true.mpr ⟨p, hp, (containsSub_spec _ _).mpr hinf⟩) h
      · exact List.any_eq_true.mpr ⟨s, hs, (containsSub_spec _ _).mpr hinf⟩

/-! ## File records and the repository indexer -/

/-- The centrality score is a Python float; every value the scorer
produces is an exact small rational (an integer divided by the positive
maximum raw score), modelled as an integer fraction compared by
cross-multiplication.  On such values float and exact comparison agree. -/
structure Score where
  num : Int
  den : Int
deriving DecidableEq

/-- Strict comparison of two scores as rationals (denominators are
positive in every reachable state). -/
def Score.ltb (a b : Score) : Bool := decide (a.num * b.den < b.num * a.den)

/-- Equality of two scores as rationals. -/
def Score.eqb (a b : Score) : Bool := decide (a.num * b.den = b.num * a.den)

/-- Embeds the FileMetadata dataclass. -/
structure FileMetadata where
  path : String
  size_bytes : Nat
  sha256 : String
  lang : String
  imports : List String
  exports : List String
  symbols : List String
  is_entry_point : Bool := false
  centrality_score : Score := ⟨0, 1⟩
deriving DecidableEq

/-- Outcome of opening and reading one file: decoded text, a
UnicodeDecodeError, or an OSError (permission/transient I/O failure). -/
inductive ReadOutcome
  | content (s : String)
  | decodeError
  | ioError
deriving DecidableEq

/-- A file on disk as the indexer sees it: repository-relative path, the
stat() size, and what reading it yields. -/
structure SrcFile where
  path : String
  statSize : Nat
  readResult : ReadOutcome
deriving DecidableEq

/-- The record _analyze_file builds on a UnicodeDecodeError: binary
language, empty hash and metadata, stat() size. -/
def degradedRecord (f : SrcFile) : FileMetadata :=
  { path := f.path, size_bytes := f.statSize, sha256 := "", lang := "binary",
    imports := [], exports := [], symbols := [] }

/-- The successful branch of _analyze_file: metadata extracted from the
decoded content; size_bytes is len(content.encode()).  The sha256 hex
digest (hashlib) is a parameter of the embedding; no claim depends on its
value. -/
def analyzeContent (sha : String → String) (path content : String) :
    FileMetadata :=
  let lang := detect_language path
  { path := path
    size_bytes := content.utf8ByteSize
    sha256 := sha content
    lang := lang
    imports := extract_imports content lang
    exports := extract_exports content lang
    symbols := extract_symbols content lang
    is_entry_point := is_entry_point path content }

/-- Embeds _analyze_file: a UnicodeDecodeError is caught and yields the
degraded binary record; an OSError propagates to the caller. -/
def analyze_file (sha : String → String) (f : SrcFile) :
    Except String FileMetadata :=
  match f.readResult with
  | ReadOutcome.ioError => Except.error "OSError"
  | ReadOutcome.decodeError => Except.ok (degradedRecord f)
  | ReadOutcome.content s => Except.ok (analyzeContent sha f.path s)

/-- Embeds _index_repository: every non-ignored file is analysed; a raised
exception is caught, a warning is printed, and the loop continues without
appending anything for that file. -/
def index_repository (sha : String → String) (files : List SrcFile) :
    List FileMetadata :=
  files.filterMap (fun f =>
    if should_ignore_file f.path then none
    else
      match analyze_file sha f with
      | Except.ok m => some m
      | Except.error _ => none)

def isIOError : ReadOutcome → Bool
  | ReadOutcome.ioError => true
  | _ => false

/-- The record a non-ignored, non-OSError file contributes to the index
(the ioError case of the match is unreachable under the filter below). -/
def indexedRecord (sha : String → String) (f : SrcFile) : FileMetadata :=
  match f.readResult with
  | ReadOutcome.content s => analyzeContent sha f.path s
  | _ => degradedRecord f

theorem filterMap_guard_eq {α β : Type} (p : α → Bool) (g : α → β) :
    ∀ l : List α,
      l.filterMap (fun a => if p a then some (g a) else none)
        = (l.filter p).map g := by
  intro l
  induction l with
  | nil => rfl
  | cons a t ih =>
    by_cases h : p a <;> simp [h, ih]

theorem index_repository_eq (sha : String → String) (files : List SrcFile) :
    index_repository sha files
      = (files.filter
          (fun f => !(should_ignore_file f.path) && !(isIOError f.readResult))).map
          (indexedRecord sha) := by
  have hfun : (fun f : SrcFile =>
        if should_ignore_file f.path then none
        else
          match analyze_file sha f with
          | Except.ok m => some m
          | Except.error _ => none)
      = (fun f : SrcFile =>
          if !(should_ignore_file f.path) && !(isIOError f.readResult)
          then some (indexedRecord sha f) else none) := by
    funext f
    by_cases hig : should_ignore_file f.path
    · simp [hig]
    · cases hr : f.readResult <;>
        simp [hig, hr, analyze_file, indexedRecord, isIOError]
  rw [index_repository, hfun, filterMap_guard_eq]

/-- Counterexample to claim C3.  A non-ignored file whose analysis fails
with an I/O error is omitted from the produced index entirely (the except
branch of _index_repository just logs and continues), contradicting the
claim that every failed file still appears with degraded metadata. -/
theorem index_io_error_omitted_counterexample :
    index_repository (fun _ => "")
      [{ path := "data.bin", statSize := 10, readResult := ReadOutcome.ioError }]
      = [] := by
  decide

/-- Claim C3 as amended: the index is exactly the non-ignored,
non-I/O-error files in order, each mapped to its record — so indexing never
aborts, a file whose content fails UTF-8 decoding still appears with the
degraded binary record (empty hash and metadata), but a file whose read
raises an I/O error is caught, logged and OMITTED from the index. -/
theorem index_degraded_inclusion (sha : String → String)
    (files : List SrcFile) :
    (index_repository sha files
        = (files.filter
            (fun f => !(should_ignore_file f.path) && !(isIOError f.readResult))).map
            (indexedRecord sha))
      ∧ ∀ f ∈ files, should_ignore_file f.path = false →
          f.readResult = ReadOutcome.decodeError →
          degradedRecord f ∈ index_repository sha files := by
  refine ⟨index_repository_eq sha files, ?_⟩
  intro f hf hig hdec
  rw [index_repository_eq sha files]
  refine List.mem_map.mpr ⟨f, ?_, ?_⟩
  · refine List.mem_filter.mpr ⟨hf, ?_⟩
    simp [hig, hdec, isIOError]
  · simp [indexedRecord, hdec]

/-- Witness for C3's amended theorem: a concrete undecodable file appears
in the index as its degraded record. -/
theorem index_degraded_inclusion_witness :
    degradedRecord
        { path := "blob.bin", statSize := 7, readResult := ReadOutcome.decodeError }
      ∈ index_repository (fun _ => "")
        [{ path := "blob.bin", statSize := 7, readResult := ReadOutcome.decodeError }] :=
  (index_degraded_inclusion (fun _ => "")
      [{ path := "blob.bin", statSize := 7, readResult := ReadOutcome.decodeError }]).2
    { path := "blob.bin", statSize := 7, readResult := ReadOutcome.decodeError }
    (by decide) (by decide) rfl

/-! ## Unit splitter (ast_chunker.py, _parse_regex_units and friends) -/

/-- The unit dict produced by _extract_python_unit / _extract_js_unit
(keys kind, name, start, end, start_line, end_line; the calls and
called_by lists are always empty). -/
structure RegexUnit where
  kind : String
  name : String
  startByte : Nat
  endByte : Nat
  startLine : Nat
  endLine : Nat
deriving DecidableEq

/-- sum(len(line) + 1 for line in lines[:n]): the byte offset of line n
(the +1 is the newline; Python slicing caps n at the list length). -/
def byteOff : List String → Nat → Nat
  | _, 0 => 0
  | [], _ + 1 => 0
  | l :: ls, n + 1 => l.length + 1 + byteOff ls n

/-- The end-of-unit scan of _extract_python_unit: starting below the header
line, skip blank lines, stop at the first line whose indentation is at most
the header indentation d and report the line before it; if the scan falls
off the end, the unit extends to the last line (the for-else branch).  The
fuel argument is initialised to the number of lines; it only bounds the
recursion (each step advances the index by one) and exhausting it coincides
with the for-else result. -/
def endScanGo (lines : List String) (d : Nat) : Nat → Nat → Nat
  | 0, _ => lines.length - 1
  | fuel + 1, i =>
    if i < lines.length then
      if pyStrip (lines.getD i "") = "" then endScanGo lines d fuel (i + 1)
      else if lineIndent (lines.getD i "") ≤ d then i - 1
      else endScanGo lines d fuel (i + 1)
    else lines.length - 1

/-- The end-line computation of _extract_python_unit for a unit headed at
line startLine with indentation d: scan from the next line. -/
def endScan (lines : List String) (d : Nat) (i : Nat) : Nat :=
  endScanGo lines d lines.length i

/-- Embeds _extract_python_unit: the name comes from the class/def regex on
the stripped header line, the end line from the indentation scan, the byte
span from byteOff. -/
def extract_python_unit (lines : List String) (startLine : Nat)
    (kind : String) : Option RegexUnit :=
  let stripped := pyStripList ((lines.getD startLine "").toList)
  let nameOpt := if kind = "class" then matchKwName kwClass stripped
                 else matchKwName kwDef stripped
  match nameOpt with
  | none => none
  | some nm =>
    let endLine := endScan lines (lineIndent (lines.getD startLine "")) (startLine + 1)
    some { kind := kind, name := String.mk nm,
           startByte := byteOff lines startLine,
           endByte := byteOff lines (endLine + 1),
           startLine := startLine, endLine := endLine }

/-- Embeds the Python branch of _parse_regex_units: the enumerate loop from
line i on; a line whose stripped text matches the class regex yields a
class unit, else the def regex a function unit.  Fuel as in endScanGo. -/
def pyUnitsScanGo (lines : List String) : Nat → Nat → List RegexUnit
  | 0, _ => []
  | fuel + 1, i =>
    if i < lines.length then
      if (matchKwName kwClass (pyStripList ((lines.getD i "").toList))).isSome then
        match extract_python_unit lines i "class" with
        | some u => u :: pyUnitsScanGo lines fuel (i + 1)
        | none => pyUnitsScanGo lines fuel (i + 1)
      else if (matchKwName kwDef (pyStripList ((lines.getD i "").toList))).isSome then
        match extract_python_unit lines i "function" with
        | some u => u :: pyUnitsScanGo lines fuel (i + 1)
        | none => pyUnitsScanGo lines fuel (i + 1)
      else pyUnitsScanGo lines fuel (i + 1)
    else []

/-- The full Python unit scan over all lines. -/
def pyUnitsScan (lines : List String) : List RegexUnit :=
  pyUnitsScanGo lines lines.length 0

/-- The character loop of _extract_js_unit: processes one line updating
(brace_count, in_unit); the third component records whether the inner
break fired (depth returned to zero on a closing brace while in_unit). -/
def jsScanLine : List Char → Int → Bool → Int × Bool × Bool
  | [], count, inUnit => (count, inUnit, false)
  | c :: rest, count, inUnit =>
    if c = openBraceChar then jsScanLine rest (count + 1) true
    else if c = closeBraceChar then
      if inUnit ∧ count - 1 = 0 then (count - 1, inUnit, true)
      else jsScanLine rest (count - 1) inUnit
    else jsScanLine rest count inUnit

/-- The line loop of _extract_js_unit: end_line is updated only by the
inner break; the outer loop stops when in_unit holds with zero depth. -/
def jsEndGo (lines : List String) : Nat → Nat → Nat → Int → Bool → Nat
  | 0, endLine, _, _, _ => endLine
  | fuel + 1, endLine, i, count, inUnit =>
    if i < lines.length then
      match jsScanLine (lines.getD i "").toList count inUnit with
      | (c2, u2, broke) =>
        let endLine2 := if broke then i else endLine
        if u2 ∧ c2 = 0 then endLine2
        else jsEndGo lines fuel endLine2 (i + 1) c2 u2
    else endLine

/-- The name regex of _extract_js_unit (looser than the detection regex:
for functions just "function NAME" or "const NAME"). -/
def matchJsUnitName (kind : String) (l : List Char) : Option (List Char) :=
  if kind = "class" then (matchJsClassAt l).map (fun x => x.1)
  else
    let l2 := (dropKwWs kwExport l).getD l
    match matchKwNameRest kwFunction l2 with
    | some (nm, _) => some nm
    | none => (matchKwNameRest kwConst l2).map (fun x => x.1)

/-- Embeds _extract_js_unit. -/
def extract_js_unit (lines : List String) (startLine : Nat)
    (kind : String) : Option RegexUnit :=
  match matchJsUnitName kind (pyStripList ((lines.getD startLine "").toList)) with
  | none => none
  | some nm =>
    let endLine := jsEndGo lines lines.length startLine startLine 0 false
    some { kind := kind, name := String.mk nm,
           startByte := byteOff lines startLine,
           endByte := byteOff lines (endLine + 1),
           startLine := startLine, endLine := endLine }

/-- Embeds the JS/TS branch of _parse_regex_units. -/
def jsUnitsScanGo (lines : List String) : Nat → Nat → List RegexUnit
  | 0, _ => []
  | fuel + 1, i =>
    if i < lines.length then
      if (matchJsClassAt (pyStripList ((lines.getD i "").toList))).isSome then
        match extract_js_unit lines i "class" with
        | some u => u :: jsUnitsScanGo lines fuel (i + 1)
        | none => jsUnitsScanGo lines fuel (i + 1)
      else if (matchJsFuncHeadAt (pyStripList ((lines.getD i "").toList))).isSome then
        match extract_js_unit lines i "function" with
        | some u => u :: jsUnitsScanGo lines fuel (i + 1)
        | none => jsUnitsScanGo lines fuel (i + 1)
      else jsUnitsScanGo lines fuel (i + 1)
    else []

/-- The full JS unit scan over all lines. -/
def jsUnitsScan (lines : List String) : List RegexUnit :=
  jsUnitsScanGo lines lines.length 0

/-- Embeds _parse_regex_units (the tree-sitter path _parse_ast_units also
falls straight back to it).  A language outside both rule sets yields no
units. -/
def parse_regex_units (content : String) (lang : String) : List RegexUnit :=
  let lines := pySplitOnChar '\n' content
  if lang = "py" then pyUnitsScan lines
  else if ["js", "ts", "jsx", "tsx"].contains lang then jsUnitsScan lines
  else []

theorem byteOff_le_succ : ∀ (lines : List String) (n : Nat),
    byteOff lines n ≤ byteOff lines (n + 1)
  | [], n => by cases n <;> simp [byteOff]
  | _ :: _, 0 => by simp [byteOff]
  | l :: ls, n + 1 => by
    simp only [byteOff]
    have := byteOff_le_succ ls n
    omega

theorem byteOff_mono (lines : List String) {m n : Nat} (h : m ≤ n) :
    byteOff lines m ≤ byteOff lines n := by
  induction h with
  | refl => exact Nat.le_refl _
  | step _ ih => exact Nat.le_trans ih (byteOff_le_succ lines _)

/-- A line below a top-level unit header that is non-blank and has
indentation at most d stops the end scan strictly before itself. -/
theorem endScanGo_lt (lines : List String) (d : Nat) :
    ∀ (fuel i j : Nat), j - i < fuel → 1 ≤ i → i ≤ j → j < lines.length →
      pyStrip (lines.getD j "") ≠ "" → lineIndent (lines.getD j "") ≤ d →
      endScanGo lines d fuel i < j := by
  intro fuel
  induction fuel with
  | zero =>
    intro i j hn
    omega
  | succ k ih =>
    intro i j hn h1 hij hj hs hd2
    by_cases hij' : i = j
    · subst hij'
      simp only [endScanGo]
      rw [if_pos hj, if_neg hs, if_pos hd2]
      omega
    · have hi : i < lines.length := by omega
      simp only [endScanGo]
      rw [if_pos hi]
      by_cases hblank : pyStrip (lines.getD i "") = ""
      · rw [if_pos hblank]
        exact ih (i + 1) j (by omega) (by omega) (by omega) hj hs hd2
      · rw [if_neg hblank]
        by_cases hind : lineIndent (lines.getD i "") ≤ d
        · rw [if_pos hind]
          omega
        · rw [if_neg hind]
          exact ih (i + 1) j (by omega) (by omega) (by omega) hj hs hd2

theorem endScan_lt (lines : List String) (d : Nat) {i j : Nat}
    (h1 : 1 ≤ i) (hij : i ≤ j) (hj : j < lines.length)
    (hs : pyStrip (lines.getD j "") ≠ "") (hd2 : lineIndent (lines.getD j "") ≤ d) :
    endScan lines d i < j :=
  endScanGo_lt lines d lines.length i j (by omega) h1 hij hj hs hd2

/-- A line of the file matches one of the two unit-opening regexes. -/
def pyDeclAt (lines : List String) (j : Nat) : Prop :=
  (matchKwName kwClass (pyStripList ((lines.getD j "").toList))).isSome = true
    ∨ (matchKwName kwDef (pyStripList ((lines.getD j "").toList))).isSome = true

instance (lines : List String) (j : Nat) : Decidable (pyDeclAt lines j) := by
  unfold pyDeclAt
  infer_instance

theorem matchKwName_class_ne_nil {l : List Char}
    (h : (matchKwName kwClass l).isSome = true) : l ≠ [] := by
  rintro rfl
  revert h
  decide

theorem matchKwName_def_ne_nil {l : List Char}
    (h : (matchKwName kwDef l).isSome = true) : l ≠ [] := by
  rintro rfl
  revert h
  decide

theorem pyDeclAt_strip_ne (lines : List String) (j : Nat)
    (h : pyDeclAt lines j) : pyStrip (lines.getD j "") ≠ "" := by
  intro he
  have hl : pyStripList ((lines.getD j "").toList) = [] := by
    have := congrArg String.data he
    simpa [pyStrip] using this
  unfold pyDeclAt at h
  rw [hl] at h
  rcases h with h | h
  · exact matchKwName_class_ne_nil h rfl
  · exact matchKwName_def_ne_nil h rfl

/-- Invariants of the Python unit scan, proved together with pairwise
non-overlap under the hypothesis that every unit-opening line of the file
sits at indentation zero (that is, the file has only top-level class/def
headers). -/
theorem pyUnitsScanGo_props (lines : List String)
    (H : ∀ j, j < lines.length → pyDeclAt lines j →
      lineIndent (lines.getD j "") = 0) :
    ∀ (fuel i : Nat), lines.length - i ≤ fuel →
      ((pyUnitsScanGo lines fuel i).Pairwise
          (fun u v => u.startByte ≤ v.startByte ∧ u.endByte ≤ v.startByte)
        ∧ ∀ u ∈ pyUnitsScanGo lines fuel i,
            i ≤ u.startLine ∧ u.startLine < lines.length
              ∧ pyDeclAt lines u.startLine
              ∧ u.startByte = byteOff lines u.startLine
              ∧ u.endByte = byteOff lines
                  (endScan lines (lineIndent (lines.getD u.startLine ""))
                    (u.startLine + 1) + 1)) := by
  intro fuel
  induction fuel with
  | zero =>
    intro i _
    simp [pyUnitsScanGo]
  | succ k ih =>
    intro i hfi
    by_cases hi : i < lines.length
    case neg =>
      simp only [pyUnitsScanGo]
      rw [if_neg hi]
      simp
    case pos =>
      have hrec := ih (i + 1) (by omega)
      simp only [pyUnitsScanGo]
      rw [if_pos hi]
      by_cases hc : (matchKwName kwClass (pyStripList ((lines.getD i "").toList))).isSome
      · rcases Option.isSome_iff_exists.mp hc with ⟨nm, hnm⟩
        have hext : extract_python_unit lines i "class"
            = some { kind := "class", name := String.mk nm,
                     startByte := byteOff lines i,
                     endByte := byteOff lines
                       (endScan lines (lineIndent (lines.getD i "")) (i + 1) + 1),
                     startLine := i,
                     endLine := endScan lines (lineIndent (lines.getD i "")) (i + 1) } := by
          simp only [extract_python_unit, hnm, reduceIte]
        rw [if_pos hc, hext]
        refine ⟨List.Pairwise.cons ?_ hrec.1, ?_⟩
        · intro v hv
          obtain ⟨hiv, hvlen, hvdecl, hvstart, hvend⟩ := hrec.2 v hv
          have hv_ind : lineIndent (lines.getD v.startLine "") = 0 := H _ hvlen hvdecl
          have hstripv : pyStrip (lines.getD v.startLine "") ≠ "" :=
            pyDeclAt_strip_ne lines v.startLine hvdecl
          have hscan : endScan lines (lineIndent (lines.getD i "")) (i + 1) < v.startLine :=
            endScan_lt lines _ (by omega) (by omega) hvlen hstripv (by omega)
          constructor
          · rw [hvstart]
            exact byteOff_mono lines (by omega)
          · rw [hvstart]
            exact byteOff_mono lines (by omega)
        · intro u hu
          rcases List.mem_cons.mp hu with rfl | hu'
          · exact ⟨Nat.le_refl i, hi, Or.inl hc, rfl, rfl⟩
          · obtain ⟨h1, h2, h3, h4, h5⟩ := hrec.2 u hu'
            exact ⟨by omega, h2, h3, h4, h5⟩
      · by_cases hd : (matchKwName kwDef (pyStripList ((lines.getD i "").toList))).isSome
        · rcases Option.isSome_iff_exists.mp hd with ⟨nm, hnm⟩
          have hext : extract_python_unit lines i "function"
              = some { kind := "function", name := String.mk nm,
                       startByte := byteOff lines i,
                       endByte := byteOff lines
                         (endScan lines (lineIndent (lines.getD i "")) (i + 1) + 1),
                       startLine := i,
                       endLine := endScan lines (lineIndent (lines.getD i "")) (i + 1) } := by
            simp only [extract_python_unit, hnm, reduceIte, String.reduceEq]
          rw [if_neg hc, if_pos hd, hext]
          refine ⟨List.Pairwise.cons ?_ hrec.1, ?_⟩
          · intro v hv
            obtain ⟨hiv, hvlen, hvdecl, hvstart, hvend⟩ := hrec.2 v hv
            have hv_ind : lineIndent (lines.getD v.startLine "") = 0 := H _ hvlen hvdecl
            have hstripv : pyStrip (lines.getD v.startLine "") ≠ "" :=
              pyDeclAt_strip_ne lines v.startLine hvdecl
            have hscan : endScan lines (lineIndent (lines.getD i "")) (i + 1) < v.startLine :=
              endScan_lt lines _ (by omega) (by omega) hvlen hstripv (by omega)
            constructor
            · rw [hvstart]
              exact byteOff_mono lines (by omega)
            · rw [hvstart]
              exact byteOff_mono lines (by omega)
          · intro u hu
            rcases List.mem_cons.mp hu with rfl | hu'
            · exact ⟨Nat.le_refl i, hi, Or.inr hd, rfl, rfl⟩
            · obtain ⟨h1, h2, h3, h4, h5⟩ := hrec.2 u hu'
              exact ⟨by omega, h2, h3, h4, h5⟩
        · rw [if_neg hc, if_neg hd]
          refine ⟨hrec.1, ?_⟩
          intro u hu
          obtain ⟨h1, h2, h3, h4, h5⟩ := hrec.2 u hu
          exact ⟨by omega, h2, h3, h4, h5⟩

/-- Counterexample to claim C2.  On a file with a nested def, the splitter
emits units for both the outer and the inner def, and their byte spans
overlap: outer spans bytes 0 to 56 and inner (emitted later, so adjacent in
start order) starts at byte 13 inside it, violating
unit[i].end_byte ≤ unit[i+1].start_byte. -/
theorem unit_overlap_counterexample :
    (parse_regex_units "def outer():\n    def inner():\n        pass\n    return 1" "py").map
        (fun u => (u.name, u.startByte, u.endByte))
      = [("outer", 0, 56), ("inner", 13, 43)]
    ∧ ¬ ((56 : Nat) ≤ 13) := by
  constructor
  · decide
  · decide

/-- Claim C2 as amended: provided every class/def header line of the file
sits at indentation zero (no nested or indented declarations — the case the
counterexample excludes), the Python units are emitted in ascending
start_byte order and are pairwise non-overlapping:
unit[i].end_byte ≤ unit[i+1].start_byte. -/
theorem units_non_overlapping (content : String)
    (H : ∀ j, j < (pySplitOnChar '\n' content).length →
        pyDeclAt (pySplitOnChar '\n' content) j →
        lineIndent ((pySplitOnChar '\n' content).getD j "") = 0) :
    (parse_regex_units content "py").Pairwise
      (fun u v => u.startByte ≤ v.startByte ∧ u.endByte ≤ v.startByte) := by
  have h := (pyUnitsScanGo_props (pySplitOnChar '\n' content) H
    (pySplitOnChar '\n' content).length 0 (by omega)).1
  simpa [parse_regex_units, pyUnitsScan] using h

/-- Witness for C2's amended theorem: a concrete two-function top-level
file has non-overlapping units. -/
theorem units_non_overlapping_witness :
    (parse_regex_units "def a():\n    pass\ndef b():\n    pass" "py").Pairwise
      (fun u v => u.startByte ≤ v.startByte ∧ u.endByte ≤ v.startByte) :=
  units_non_overlapping "def a():\n    pass\ndef b():\n    pass" (by decide)

/-! ## Chunker configuration and chunk builder (ast_chunker.py) -/

/-- The constructor state of ASTChunker: the four numeric parameters,
stored as Python ints (negative values are representable because the
constructor never validates). -/
structure ASTChunker where
  size_threshold : Int
  token_threshold : Int
  prelude_lines : Int
  unit_max_tokens : Int
deriving DecidableEq

/-- Embeds ASTChunker.__init__: the four parameters are assigned to
attributes verbatim; there is no validation and construction never
fails. -/
def astChunkerInit (size_threshold token_threshold prelude_lines
    unit_max_tokens : Int) : ASTChunker :=
  { size_threshold := size_threshold, token_threshold := token_threshold,
    prelude_lines := prelude_lines, unit_max_tokens := unit_max_tokens }

/-- The default parameters of ASTChunker.__init__. -/
def astChunkerDefault : ASTChunker := astChunkerInit 400000 100000 200 3000

/-- Python l[:m] for an int bound m: a negative bound counts from the
end. -/
def pySliceListTo {α : Type} (l : List α) (m : Int) : List α :=
  if 0 ≤ m then l.take m.toNat else l.take ((l.length : Int) + m).toNat

/-- Python s[:m] for an int bound m. -/
def pySliceTo (s : String) (m : Int) : String :=
  String.mk (pySliceListTo s.toList m)

/-- The chunk dataclass ChunkMetadata; the prelude, unit, neighbors and
edges dicts are flattened into fields (prelude.content, prelude.lines,
unit.kind, unit.name, unit.span_lines, unit.content, neighbors.prev,
neighbors.next, edges.calls, edges.called_by). -/
structure PyChunkMetadata where
  chunk_id : String
  type : String
  path : String
  lang : String
  parent_file_hash : Option String
  byte_start : Nat
  byte_end : Nat
  preludeContent : String
  preludeLines : Int × Int
  unitKind : String
  unitName : String
  unitSpanLines : Nat × Nat
  unitContent : String
  neighborPrev : Option String
  neighborNext : Option String
  summary : String
  edgesCalls : List String
  edgesCalledBy : List String
deriving DecidableEq

/-- Embeds _create_file_chunk: a file that cannot be decoded contributes
the placeholder text "[Binary file]"; chunk_id is sha256:0:len(content);
the prelude is the first prelude_lines*50 characters. -/
def create_file_chunk (c : ASTChunker) (fm : FileMetadata)
    (content? : Option String) : PyChunkMetadata :=
  let content := content?.getD "[Binary file]"
  { chunk_id := fm.sha256 ++ ":0:" ++ toString content.length
    type := "file"
    path := fm.path
    lang := fm.lang
    parent_file_hash := none
    byte_start := 0
    byte_end := content.length
    preludeContent := pySliceTo content (min (content.length : Int) (c.prelude_lines * 50))
    preludeLines := (0, min ((pySplitOnChar '\n' content).length : Int) c.prelude_lines)
    unitKind := "file"
    unitName := pathStem fm.path
    unitSpanLines := (0, (pySplitOnChar '\n' content).length)
    unitContent := content
    neighborPrev := none
    neighborNext := none
    summary := "Complete " ++ fm.lang ++ " file: " ++ fm.path
    edgesCalls := fm.imports
    edgesCalledBy := [] }

/-- The line filter of _extract_prelude: keep blank lines and lines whose
stripped text starts with a declaration-like or comment marker. -/
def preludeKeep (line : String) : Bool :=
  let s := pyStrip line
  (["import ", "from ", "const ", "let ", "var ", "//", "#", "/*"].any
      (fun p => p.toList.isPrefixOf s.toList))
    || s = ""
    || ("package ".toList.isPrefixOf s.toList)
    || ("use ".toList.isPrefixOf s.toList)

/-- Embeds _extract_prelude: the lines of content before the unit start,
cut to prelude_lines, filtered by preludeKeep and re-joined. -/
def extract_prelude (c : ASTChunker) (content : String) (unitStart : Nat) :
    String :=
  let lines := pySplitOnChar '\n' (String.mk (content.toList.take unitStart))
  String.intercalate "\n" ((pySliceListTo lines c.prelude_lines).filter preludeKeep)

/-- One unit chunk built by the loop of _split_large_file. -/
def unitChunk (c : ASTChunker) (fm : FileMetadata) (content : String)
    (u : RegexUnit) (prev next : Option RegexUnit) : PyChunkMetadata :=
  let preludeContent := extract_prelude c content u.startByte
  { chunk_id := fm.sha256 ++ ":" ++ toString u.startByte ++ ":" ++ toString u.endByte
    type := "unit"
    path := fm.path
    lang := fm.lang
    parent_file_hash := some fm.sha256
    byte_start := u.startByte
    byte_end := u.endByte
    preludeContent := preludeContent
    preludeLines := (0, ((pySplitOnChar '\n' preludeContent).length : Int))
    unitKind := u.kind
    unitName := u.name
    unitSpanLines := (u.startLine, u.endLine)
    unitContent := String.mk ((content.toList.drop u.startByte).take (u.endByte - u.startByte))
    neighborPrev := prev.map (fun p => p.name)
    neighborNext := next.map (fun n => n.name)
    summary := u.kind ++ " " ++ u.name
    edgesCalls := []
    edgesCalledBy := [] }

/-- Embeds _split_large_file: an undecodable file yields NO chunks; a
decodable file with no units falls back to one whole-file chunk; otherwise
one unit chunk per unit, with prev/next neighbour names taken from list
order. -/
def split_large_file (c : ASTChunker) (fm : FileMetadata)
    (content? : Option String) : List PyChunkMetadata :=
  match content? with
  | none => []
  | some content =>
    let units := parse_regex_units content fm.lang
    if units.isEmpty then [create_file_chunk c fm content?]
    else
      units.enum.map (fun iu =>
        unitChunk c fm content iu.2
          (if 0 < iu.1 then units.get? (iu.1 - 1) else none)
          (if iu.1 < units.length - 1 then units.get? (iu.1 + 1) else none))

/-- The per-file dispatch of _create_chunks: a file above the size
threshold goes through the splitter, the rest become single file
chunks. -/
def chunkFile (c : ASTChunker) (fm : FileMetadata)
    (content? : Option String) : List PyChunkMetadata :=
  if (fm.size_bytes : Int) > c.size_threshold then split_large_file c fm content?
  else [create_file_chunk c fm content?]

/-- Embeds _create_chunks over the indexed records paired with their
on-disk read outcome (the Python code re-reads every file; the pairing
models the second read returning the same data). -/
def create_chunks (c : ASTChunker)
    (files : List (FileMetadata × Option String)) : List PyChunkMetadata :=
  (files.map (fun fc => chunkFile c fc.1 fc.2)).flatten

theorem parse_regex_units_no_ruleset (content : String) (lang : String)
    (h : lang ∉ ["py", "js", "ts", "jsx", "tsx"]) :
    parse_regex_units content lang = [] := by
  have h1 : ¬ lang = "py" := by
    intro he
    exact h (by simp [he])
  have h2 : ¬ (["js", "ts", "jsx", "tsx"].contains lang = true) := by
    intro he
    exact h (List.mem_cons_of_mem _ (List.mem_of_elem_eq_true he))
  unfold parse_regex_units
  rw [if_neg h1, if_neg h2]

/-- Counterexample to claim C5.  A file whose language has no splitting
rule set (here lang=binary) but which is above the size threshold and
cannot be decoded yields ZERO chunks, not one: _split_large_file returns
the empty list on a UnicodeDecodeError. -/
theorem fallback_zero_chunks_counterexample :
    chunkFile astChunkerDefault
      { path := "big.bin", size_bytes := 500000, sha256 := "", lang := "binary",
        imports := [], exports := [], symbols := [] } none = [] := by
  decide

/-- Claim C5 as amended: for every DECODABLE file whose language has no
splitting rule set or whose rule set finds zero units, chunking the file
yields exactly one chunk of kind "file" spanning the whole content,
regardless of size; an undecodable file above the size threshold instead
yields zero chunks (see the counterexample). -/
theorem fallback_single_file_chunk (c : ASTChunker) (fm : FileMetadata)
    (content : String)
    (h : fm.lang ∉ ["py", "js", "ts", "jsx", "tsx"]
      ∨ parse_regex_units content fm.lang = []) :
    chunkFile c fm (some content) = [create_file_chunk c fm (some content)]
      ∧ (create_file_chunk c fm (some content)).type = "file"
      ∧ (create_file_chunk c fm (some content)).byte_start = 0
      ∧ (create_file_chunk c fm (some content)).byte_end = content.length := by
  have hunits : parse_regex_units content fm.lang = [] := by
    rcases h with h | h
    · exact parse_regex_units_no_ruleset content fm.lang h
    · exact h
  refine ⟨?_, rfl, rfl, rfl⟩
  unfold chunkFile
  by_cases hsz : (fm.size_bytes : Int) > c.size_threshold
  · rw [if_pos hsz]
    unfold split_large_file
    simp [hunits]
  · rw [if_neg hsz]

/-- A markdown record used in witnesses (language md has no rule set). -/
def demoMdFm : FileMetadata :=
  { path := "notes.md", size_bytes := 6, sha256 := "", lang := "md",
    imports := [], exports := [], symbols := [] }

/-- Witness for C5's amended theorem at a concrete markdown file. -/
theorem fallback_single_file_chunk_witness :
    chunkFile astChunkerDefault demoMdFm (some "# Demo")
        = [create_file_chunk astChunkerDefault demoMdFm (some "# Demo")]
      ∧ (create_file_chunk astChunkerDefault demoMdFm (some "# Demo")).type = "file"
      ∧ (create_file_chunk astChunkerDefault demoMdFm (some "# Demo")).byte_start = 0
      ∧ (create_file_chunk astChunkerDefault demoMdFm (some "# Demo")).byte_end
          = ("# Demo" : String).length :=
  fallback_single_file_chunk astChunkerDefault demoMdFm "# Demo" (Or.inl (by decide))

/-- Counterexample to claim C8.  Constructing the chunker with a negative
size threshold, a negative prelude line count and a zero token budget
succeeds and stores the invalid values verbatim: no validation failure is
ever surfaced. -/
theorem config_no_validation_counterexample :
    astChunkerInit (-1) 100000 (-5) 0
      = { size_threshold := -1, token_threshold := 100000,
          prelude_lines := -5, unit_max_tokens := 0 } := rfl

/-- Claim C8 as amended: ASTChunker.__init__ performs NO validation — any
configuration, including non-positive thresholds, is accepted and stored
verbatim, and chunking proceeds under it (with a negative size threshold
every file, whose size is a Nat, is routed to the large-file splitter);
the group packer's limits are hardcoded constants unaffected by the
configuration. -/
theorem config_accepted_verbatim (st tt pl ut : Int) :
    astChunkerInit st tt pl ut
        = { size_threshold := st, token_threshold := tt,
            prelude_lines := pl, unit_max_tokens := ut }
      ∧ (st < 0 → ∀ (fm : FileMetadata) (content? : Option String),
          chunkFile (astChunkerInit st tt pl ut) fm content?
            = split_large_file (astChunkerInit st tt pl ut) fm content?) := by
  refine ⟨rfl, ?_⟩
  intro hst fm content?
  have hgt : (fm.size_bytes : Int) > (astChunkerInit st tt pl ut).size_threshold := by
    have h0 : (0 : Int) ≤ (fm.size_bytes : Int) := Int.natCast_nonneg _
    simp only [astChunkerInit]
    omega
  unfold chunkFile
  rw [if_pos hgt]

/-- Witness for C8's amended theorem: the invalid configuration (-1, _,
-5, 0) is constructed without error and routes a concrete file through the
splitter. -/
theorem config_accepted_verbatim_witness :
    chunkFile (astChunkerInit (-1) 100000 (-5) 0) demoMdFm none
      = split_large_file (astChunkerInit (-1) 100000 (-5) 0) demoMdFm none :=
  (config_accepted_verbatim (-1) 100000 (-5) 0).2 (by decide) demoMdFm none

/-- Claim C10 (confirmed).  A file whose content fails UTF-8 decoding gets
sha256 = "" from the indexer; when it is at or below the size threshold,
its single chunk has content "[Binary file]" and chunk_id ":0:13"; hence
any two undecodable files of that kind — whatever their paths and sizes —
receive identical chunk_ids. -/
theorem binary_chunk_ids (sha : String → String) (c : ASTChunker)
    (f g : SrcFile)
    (hf : f.readResult = ReadOutcome.decodeError)
    (hg : g.readResult = ReadOutcome.decodeError)
    (hfs : ¬ ((f.statSize : Int) > c.size_threshold)) :
    analyze_file sha f = Except.ok (degradedRecord f)
      ∧ analyze_file sha g = Except.ok (degradedRecord g)
      ∧ (degradedRecord f).sha256 = ""
      ∧ chunkFile c (degradedRecord f) none
          = [create_file_chunk c (degradedRecord f) none]
      ∧ (create_file_chunk c (degradedRecord f) none).chunk_id = ":0:13"
      ∧ (create_file_chunk c (degradedRecord f) none).unitContent = "[Binary file]"
      ∧ (create_file_chunk c (degradedRecord f) none).chunk_id
          = (create_file_chunk c (degradedRecord g) none).chunk_id := by
  refine ⟨?_, ?_, rfl, ?_, rfl, rfl, rfl⟩
  · unfold analyze_file
    rw [hf]
  · unfold analyze_file
    rw [hg]
  · unfold chunkFile
    rw [if_neg ?_]
    show ¬ (((degradedRecord f).size_bytes : Int) > c.size_threshold)
    simpa [degradedRecord] using hfs

/-- Witness for C10 at two concrete undecodable files with different
paths and sizes. -/
theorem binary_chunk_ids_witness :
    analyze_file (fun _ => "")
        { path := "a.bin", statSize := 9, readResult := ReadOutcome.decodeError }
        = Except.ok (degradedRecord
          { path := "a.bin", statSize := 9, readResult := ReadOutcome.decodeError })
      ∧ analyze_file (fun _ => "")
          { path := "b.bin", statSize := 4, readResult := ReadOutcome.decodeError }
          = Except.ok (degradedRecord
            { path := "b.bin", statSize := 4, readResult := ReadOutcome.decodeError })
      ∧ (degradedRecord
          { path := "a.bin", statSize := 9, readResult := ReadOutcome.decodeError }).sha256 = ""
      ∧ chunkFile astChunkerDefault (degradedRecord
            { path := "a.bin", statSize := 9, readResult := ReadOutcome.decodeError }) none
          = [create_file_chunk astChunkerDefault (degradedRecord
              { path := "a.bin", statSize := 9, readResult := ReadOutcome.decodeError }) none]
      ∧ (create_file_chunk astChunkerDefault (degradedRecord
          { path := "a.bin", statSize := 9, readResult := ReadOutcome.decodeError }) none).chunk_id
          = ":0:13"
      ∧ (create_file_chunk astChunkerDefault (degradedRecord
          { path := "a.bin", statSize := 9, readResult := ReadOutcome.decodeError }) none).unitContent
          = "[Binary file]"
      ∧ (create_file_chunk astChunkerDefault (degradedRecord
          { path := "a.bin", statSize := 9, readResult := ReadOutcome.decodeError }) none).chunk_id
          = (create_file_chunk astChunkerDefault (degradedRecord
              { path := "b.bin", statSize := 4, readResult := ReadOutcome.decodeError }) none).chunk_id :=
  binary_chunk_ids (fun _ => "") astChunkerDefault
    { path := "a.bin", statSize := 9, readResult := ReadOutcome.decodeError }
    { path := "b.bin", statSize := 4, readResult := ReadOutcome.decodeError }
    rfl rfl (by decide)

/-! ## Centrality scorer and traversal planner (ast_chunker.py) -/

/-- len(export_map[name]) in _calculate_centrality: export_map maps each
exported name to the set of paths of files exporting it, so its size is
the number of distinct such paths. -/
def exportCount (fms : List FileMetadata) (e : String) : Nat :=
  (((fms.filter (fun fm => fm.exports.contains e)).map (fun fm => fm.path)).dedup).length

/-- The raw centrality accumulated for a path: over every record with that
path, the export-map sizes of its exports plus the entry-point boost of
10 (the scores dict is keyed by path, so duplicate paths accumulate). -/
def rawScore (fms : List FileMetadata) (p : String) : Int :=
  ((fms.filter (fun fm => fm.path == p)).map (fun fm =>
      ((fm.exports.map (fun e => (exportCount fms e : Int))).sum
        + if fm.is_entry_point then 10 else 0))).sum

/-- The paths that received an entry in the scores dict: files with at
least one export, or entry points (the boost line). -/
def touchedPaths (fms : List FileMetadata) : List String :=
  ((fms.filter (fun fm => !fm.exports.isEmpty || fm.is_entry_point)).map
    (fun fm => fm.path)).dedup

/-- max(centrality_scores.values()) if centrality_scores else 1. -/
def maxRawScore (fms : List FileMetadata) : Int :=
  match (touchedPaths fms).map (rawScore fms) with
  | [] => 1
  | v :: vs => vs.foldl (fun a b => if a < b then b else a) v

/-- Embeds _calculate_centrality: every record's score becomes its raw
score divided by the maximum raw score (scores of untouched paths read 0
from the defaultdict). -/
def calculate_centrality (fms : List FileMetadata) : List FileMetadata :=
  fms.map (fun fm =>
    { fm with centrality_score := ⟨rawScore fms fm.path, maxRawScore fms⟩ })

/-- The priority tuple comparison of _determine_traversal_order:
(is_entry_point, centrality_score, -size_bytes) compared
lexicographically, Python-style (True > False); the negated sizes compare
as b.size > a.size. -/
def priorityGt (a b : FileMetadata) : Bool :=
  if a.is_entry_point = b.is_entry_point then
    if Score.eqb a.centrality_score b.centrality_score then
      decide ((b.size_bytes : Int) > (a.size_bytes : Int))
    else Score.ltb b.centrality_score a.centrality_score
  else a.is_entry_point

/-- Insertion step of a stable descending sort: the new element goes after
every strictly greater earlier element and before equal-priority ones
(which are later in the original order), matching Python
sorted(reverse=True) stability. -/
def insertDescBy {α : Type} (gt : α → α → Bool) (x : α) : List α → List α
  | [] => [x]
  | y :: ys => if gt y x then y :: insertDescBy gt x ys else x :: y :: ys

/-- Stable descending sort realising Python sorted(key, reverse=True). -/
def sortedDescBy {α : Type} (gt : α → α → Bool) : List α → List α
  | [] => []
  | x :: xs => insertDescBy gt x (sortedDescBy gt xs)

/-- Embeds _determine_traversal_order. -/
def determine_traversal_order (fms : List FileMetadata) : List String :=
  (sortedDescBy priorityGt fms).map (fun fm => fm.path)

/-- The index-score-order front of chunk_repository: index the files,
score centrality, compute the traversal order. -/
def traversalPipeline (sha : String → String) (files : List SrcFile) :
    List String :=
  determine_traversal_order (calculate_centrality (index_repository sha files))

/-- main.py of the three-file scenario: stem and content both mark it an
entry point. -/
def demoMainPy : SrcFile :=
  { path := "main.py", statSize := 36,
    readResult := ReadOutcome.content "if __name__ == \"__main__\":\n    pass\n" }

/-- utils.py of the three-file scenario: defines helper and other; its 54
bytes put it above a configured split threshold of 40. -/
def demoUtilsPy : SrcFile :=
  { path := "utils.py", statSize := 54,
    readResult := ReadOutcome.content
      "def helper():\n    return 1\n\ndef other():\n    return 2\n" }

/-- README.md of the three-file scenario. -/
def demoReadme : SrcFile :=
  { path := "README.md", statSize := 7,
    readResult := ReadOutcome.content "# Demo\n" }

/-- The three-file scenario repository, in directory-walk order. -/
def demoRepo : List SrcFile := [demoMainPy, demoUtilsPy, demoReadme]

/-- Counterexample to claim C6.  In the three-file scenario (utils.py is
54 bytes, above the configured split threshold of 40 of the valid
configuration below), the computed traversal order is NOT
[main.py, utils.py, README.md]: utils.py and README.md both have zero
centrality and are not entry points, and the size tie-break prefers the
SMALLER file, so README.md precedes the oversized utils.py. -/
theorem traversal_order_counterexample :
    traversalPipeline (fun _ => "") demoRepo ≠ ["main.py", "utils.py", "README.md"]
      ∧ ((demoUtilsPy.statSize : Int) > (astChunkerInit 40 100000 200 3000).size_threshold) := by
  constructor
  · decide
  · decide

/-- Claim C6 as amended: in the three-file scenario the traversal order is
[main.py, README.md, utils.py] — the entry point first, then, among files
of equal (zero) centrality, smaller files first, which puts README.md
before the above-threshold utils.py. -/
theorem traversal_order_amended :
    traversalPipeline (fun _ => "") demoRepo
      = ["main.py", "README.md", "utils.py"] := by
  decide
